import Mathlib

/-!
# Verification of the traknab acquisition pipeline

Shallow embedding of `src/traknab/__main__.py`: a batch downloader that, for
each configured track, searches an external collaborator, validates the top
result (duration and estimated file size), downloads an intermediate `.mp4`
file, transcodes it to `.mp3`, and deletes the intermediate.

Modelling decisions:
* The filesystem is a `Finset String` of file paths.  Directories (lines
  70-72 of the source, non-fatal `mkdir`) are not modelled; no claim
  concerns them.
* The external collaborators (pytube `Search`, `streams.get_audio_only`,
  `stream.download`, moviepy transcoding) are an explicit environment:
  a search oracle from query strings to result lists, and a per-track
  download outcome (success, or an interruption signal optionally leaving
  a leftover file).  Transcoding is modelled as always succeeding; no claim
  depends on transcode failure.
* Python float arithmetic in `round(audio_stream.filesize * 1e-6, 2)`
  (line 98) is idealised as exact rational arithmetic with Python's
  round-half-to-even tie rule.
* Exceptions become the explicit outcome type `DlOutcome`; the uncaught
  `IndexError` on `search_results[0]` of an empty list (line 87) and the
  uncaught `AttributeError` when no audio stream is available (lines 97-98)
  are separate outcome constructors, since `main` catches neither.
* `main`'s loop (lines 136-159) becomes `go` / `runBatch`, threading the
  process-wide global `filename` (lines 66-67) as an `Option String` that
  starts unassigned; the `except (ConnectionResetError, KeyboardInterrupt)`
  handler (lines 155-159) reads it.  An interruption raised before the body
  of the first `download` call has assigned the global is modelled by the
  per-index flag `BatchEnv.pre`.
-/

/-- Line 12: the download root.  The absolute prefix is environment
dependent (derived from `__file__`); it is opaque to all of the logic, so
any fixed string represents it. -/
def DOWNLOAD_PATH : String := "downloads"

/-- Line 15. -/
def TIMEOUT_THRESHOLD : Nat := 30

/-- Line 16: `60 * 15` seconds. -/
def TRACKLENGTH_UPPER_THRESHOLD : Nat := 60 * 15

/-- Line 17: lower bound on the estimated size in megabytes. -/
def FILESIZE_LOWER_THRESHOLD : Nat := 2

/-- Line 18. -/
def SECONDS_TO_SLEEP : Nat := 0

/-- Helper for `withSuffix`: scanning the reversed character list of a path,
drop everything up to and including the last `'.'` of the final path
component; `none` when the final component has no dot. -/
def dropRevExt : List Char → Option (List Char)
  | [] => none
  | c :: cs => if c = '.' then some cs else if c = '/' then none else dropRevExt cs

/-- `pathlib.Path.with_suffix`: replace the extension (the part of the last
path component from its final dot on) by `suffix`, or append `suffix` when
there is no extension.  Faithful on every path this development applies it
to (they all end in `".mp4"` with a nonempty stem). -/
def withSuffix (s : String) (suffix : String) : String :=
  match dropRevExt s.data.reverse with
  | some rest => String.mk rest.reverse ++ suffix
  | none => s ++ suffix

/-- Line 67: `f'{artist} - {track_title}.mp4'`. -/
def mp4Filename (artist track_title : String) : String :=
  artist ++ " - " ++ track_title ++ ".mp4"

/-- Lines 75, 106, 113, 156: `f'{DOWNLOAD_PATH}/{target_dir}/{filename}'`. -/
def trackPath (target_dir filename : String) : String :=
  DOWNLOAD_PATH ++ "/" ++ target_dir ++ "/" ++ filename

/-- Lines 75 and 118-122: the computed durable output path,
`Path(f'{DOWNLOAD_PATH}/{target_dir}/{filename}').with_suffix('.mp3')`. -/
def mp3OutputPath (artist track_title target_dir : String) : String :=
  withSuffix (trackPath target_dir (mp4Filename artist track_title)) ".mp3"

/-- Lines 78-79: `if not search_term: search_term = f'{artist} {track_title}'`.
Both `None` and the empty string are falsy in Python. -/
def effectiveSearchTerm (artist track_title : String) (search_term : Option String) : String :=
  match search_term with
  | none => artist ++ " " ++ track_title
  | some s => if s = "" then artist ++ " " ++ track_title else s

/-- Python's banker's rounding (`round` ties go to the even integer),
idealised over `ℚ`. -/
def roundHalfEven (q : ℚ) : ℤ :=
  let f := ⌊q⌋
  let r := q - f
  if r < 1 / 2 then f
  else if 1 / 2 < r then f + 1
  else if f % 2 = 0 then f else f + 1

/-- Python's `round(q, 2)`, idealised over `ℚ`. -/
def pyRound2 (q : ℚ) : ℚ := (roundHalfEven (q * 100) : ℚ) / 100

/-- Line 98: `round(audio_stream.filesize * 1e-6, 2)`. -/
def fileSizeMB (bytes : Nat) : ℚ := pyRound2 ((bytes : ℚ) * (1 / 1000000))

/-- The audio-only stream selected at line 97 (`get_audio_only(subtype='webm')`),
exposing its `filesize` in bytes. -/
structure AudioStream where
  filesize : Nat
deriving DecidableEq, Repr

/-- One search result (a pytube `YouTube` handle): a title, a duration in
seconds (`length`), and the `webm` audio-only stream when one exists
(`none` models `get_audio_only` returning `None`). -/
structure YT where
  title : String
  length : Nat
  audioWebm : Option AudioStream
deriving DecidableEq, Repr

/-- The two interruption signals caught at line 155. -/
inductive Interrupt
  | connectionReset
  | keyboardInterrupt
deriving DecidableEq, Repr

/-- Outcome of one `download` call.  Python exceptions become constructors:
`alreadyDownloaded` is `TrackAlreadyDownloaded` (line 76), `rejected` is
`TrackObtainError` with its message (lines 94, 103), `indexError` is the
uncaught `IndexError` from `search_results[0]` on an empty list (line 87),
`noStreamError` is the uncaught `AttributeError` from `audio_stream.filesize`
when `get_audio_only` returned `None` (lines 97-98), and `interrupted` is a
`ConnectionResetError`/`KeyboardInterrupt` surfacing from the blocking
stream download (line 109). -/
inductive DlOutcome
  | success
  | alreadyDownloaded
  | rejected (msg : String)
  | indexError
  | noStreamError
  | interrupted (sig : Interrupt)
deriving DecidableEq, Repr

/-- The external calls one `download` invocation performs: search queries
sent (line 84), download destinations fetched (line 109), transcode outputs
written (line 125). -/
structure Trace where
  searches : List String
  downloads : List String
  transcodes : List String
deriving DecidableEq, Repr

/-- Lines 53-130: one per-track acquisition.  `searchFn` is the search
collaborator, `dlres` the behaviour of the blocking stream download for
this call (`none` = completes; `some (sig, leftover)` = interrupted by
`sig`, with `leftover` recording whether a partially-downloaded file was
left on disk).  Returns the outcome, the filesystem after the call, and
the trace of external calls.  The assignment to the global `filename`
(lines 66-67) is performed by the caller `go`. -/
def download (searchFn : String → List YT) (dlres : Option (Interrupt × Bool))
    (fs : Finset String) (artist track_title target_dir : String)
    (search_term : Option String) : DlOutcome × Finset String × Trace :=
  let filename := mp4Filename artist track_title
  -- lines 74-76: idempotence guard on the computed `.mp3` path
  if mp3OutputPath artist track_title target_dir ∈ fs then
    (.alreadyDownloaded, fs, ⟨[], [], []⟩)
  else
    -- lines 78-79
    let term := effectiveSearchTerm artist track_title search_term
    -- line 84: `Search(search_term).results`
    match searchFn term with
    -- line 87: `search_results[0]` on an empty list
    | [] => (.indexError, fs, ⟨[term], [], []⟩)
    | yt :: _ =>
      -- lines 89-94
      if TRACKLENGTH_UPPER_THRESHOLD < yt.length then
        (.rejected "Unexpectedly long track. Skipping...", fs, ⟨[term], [], []⟩)
      else
        -- line 97
        match yt.audioWebm with
        | none => (.noStreamError, fs, ⟨[term], [], []⟩)
        | some stream =>
          -- lines 98-103
          if fileSizeMB stream.filesize < (FILESIZE_LOWER_THRESHOLD : ℚ) then
            (.rejected "Unexpectedly small file size. Skipping...", fs, ⟨[term], [], []⟩)
          else
            -- lines 106-109: download to the intermediate `.mp4` path
            let mp4p := trackPath target_dir filename
            match dlres with
            | some (sig, leftover) =>
              (.interrupted sig, if leftover then insert mp4p fs else fs,
                ⟨[term], [mp4p], []⟩)
            | none =>
              -- lines 113-130: transcode to `.mp3`, then unlink the `.mp4`
              (.success,
                ((insert (mp3OutputPath artist track_title target_dir) (insert mp4p fs)).erase
                  mp4p),
                ⟨[term], [mp4p], [mp3OutputPath artist track_title target_dir]⟩)

/-- One configured track: the loop variables of lines 136-138
(`genre` is also the target directory, line 141). -/
structure Track where
  genre : String
  artist : String
  title : String
deriving DecidableEq, Repr

/-- The parsed `tracks.toml`: genre → artist → ordered track titles, in
mapping insertion order. -/
abbrev Config := List (String × List (String × List String))

/-- The genre → artist → title iteration order of lines 136-138. -/
def flatTracks (cfg : Config) : List Track :=
  cfg.flatMap fun gp => gp.2.flatMap fun ap => ap.2.map fun t => ⟨gp.1, ap.1, t⟩

/-- Environment of a batch run: the search oracle, the per-track-index
blocking-download behaviour, and whether an interruption signal is raised
inside the `try` of track `i` before the body of `download` has run (and so
before the global `filename` was assigned for that track). -/
structure BatchEnv where
  search : String → List YT
  dl : Nat → Option (Interrupt × Bool)
  pre : Nat → Bool

/-- How a batch run ends: `completed` (line 161), `interruptedExit` (the
`exit()` of line 159 after the handler's unlink), `handlerNameError` (the
handler at line 156 read the never-assigned global `filename` and itself
raised `NameError`), `uncaughtError` (an exception no `except` arm matches
propagated out of `main`). -/
inductive RunEnd
  | completed
  | interruptedExit
  | handlerNameError
  | uncaughtError
deriving DecidableEq, Repr

/-- Lines 136-159: the batch loop over the flattened track list, starting
at track index `i` with filesystem `fs` and global `filename` state `g`.
Returns how the run ended, the final filesystem, and the list of tracks
for which `download` was invoked, paired with each call's outcome. -/
def go (env : BatchEnv) : Nat → Finset String → Option String → List Track →
    RunEnd × Finset String × List (Track × DlOutcome)
  | _, fs, _, [] => (.completed, fs, [])
  | i, fs, g, tk :: rest =>
    if env.pre i then
      -- interruption before `download`'s body: the handler (line 156)
      -- builds its path from the current `genre` and the global `filename`
      match g with
      | none => (.handlerNameError, fs, [])
      | some f => (.interruptedExit, fs.erase (trackPath tk.genre f), [])
    else
      match download env.search (env.dl i) fs tk.artist tk.title tk.genre none with
      | (o, fs', _) =>
        match o with
        | .success | .alreadyDownloaded | .rejected _ =>
          -- lines 148-153: skip / log and continue (the `SECONDS_TO_SLEEP`
          -- sleep of lines 144-146 is skipped: the constant is falsy)
          match go env (i + 1) fs' (some (mp4Filename tk.artist tk.title)) rest with
          | (e, fs'', att) => (e, fs'', (tk, o) :: att)
        | .interrupted _ =>
          -- lines 155-159: unlink the intermediate, then `exit()`
          (.interruptedExit,
            fs'.erase (trackPath tk.genre (mp4Filename tk.artist tk.title)), [(tk, o)])
        | .indexError | .noStreamError => (.uncaughtError, fs', [(tk, o)])

/-- A whole batch run (`main`, lines 133-161): global `filename` starts
unassigned. -/
def runBatch (env : BatchEnv) (fs0 : Finset String) (cfg : Config) :
    RunEnd × Finset String × List (Track × DlOutcome) :=
  go env 0 fs0 none (flatTracks cfg)

/-! ## Path shape lemmas -/

theorem string_mk_data (s : String) : String.mk s.data = s := by
  cases s; rfl

/-- `withSuffix` on a path ending in `".mp4"` replaces that extension. -/
theorem withSuffix_mp4 (x : String) : withSuffix (x ++ ".mp4") ".mp3" = x ++ ".mp3" := by
  have hdata : (x ++ ".mp4").data = x.data ++ ['.', 'm', 'p', '4'] := by
    rw [String.data_append]
  unfold withSuffix
  rw [hdata]
  simp [List.reverse_append, dropRevExt, string_mk_data]

/-- The `.mp4` intermediate path in `… ++ ".mp4"` shape. -/
theorem trackPath_mp4 (d a t : String) :
    trackPath d (mp4Filename a t) =
      (DOWNLOAD_PATH ++ "/" ++ d ++ "/" ++ (a ++ " - " ++ t)) ++ ".mp4" := by
  simp [trackPath, mp4Filename, String.append_assoc]

/-- The computed output path, spelled out. -/
theorem mp3OutputPath_eq (a t d : String) :
    mp3OutputPath a t d =
      (DOWNLOAD_PATH ++ "/" ++ d ++ "/" ++ (a ++ " - " ++ t)) ++ ".mp3" := by
  rw [mp3OutputPath, trackPath_mp4, withSuffix_mp4]

/-- No `.mp3` path coincides with a `.mp4` path. -/
theorem ne_mp3_mp4 (x y : String) : x ++ ".mp3" ≠ y ++ ".mp4" := by
  intro h
  have h2 := congrArg (fun s : String => s.data.reverse) h
  simp only [String.data_append] at h2
  simp [List.reverse_append] at h2

/-- The durable output path never equals any intermediate path. -/
theorem mp3OutputPath_ne_mp4 (a t d a' t' d' : String) :
    mp3OutputPath a t d ≠ trackPath d' (mp4Filename a' t') := by
  rw [mp3OutputPath_eq, trackPath_mp4]
  exact ne_mp3_mp4 _ _

/-! ## `download` characterisation lemmas -/

/-- Lines 74-76: when the computed output path already exists, `download`
raises `TrackAlreadyDownloaded` at once, leaving the filesystem unchanged
and performing no external call. -/
theorem download_of_mem {sf : String → List YT} {dl : Option (Interrupt × Bool)}
    {fs : Finset String} {a t d : String} {st : Option String}
    (h : mp3OutputPath a t d ∈ fs) :
    download sf dl fs a t d st = (.alreadyDownloaded, fs, ⟨[], [], []⟩) := by
  unfold download
  simp [h]

theorem download_already_inv {sf : String → List YT} {dl : Option (Interrupt × Bool)}
    {fs fs' : Finset String} {a t d : String} {st : Option String} {tr : Trace}
    (h : download sf dl fs a t d st = (.alreadyDownloaded, fs', tr)) :
    mp3OutputPath a t d ∈ fs ∧ fs' = fs ∧ tr = ⟨[], [], []⟩ := by
  by_cases hm : mp3OutputPath a t d ∈ fs
  · rw [download_of_mem hm] at h
    simp only [Prod.mk.injEq] at h
    exact ⟨hm, h.2.1.symm, h.2.2.symm⟩
  · exfalso
    simp only [download] at h
    rw [if_neg hm] at h
    split at h
    · simp at h
    · split at h
      · simp at h
      · split at h
        · simp at h
        · split at h
          · simp at h
          · split at h
            · simp at h
            · simp at h

theorem download_success_inv {sf : String → List YT} {dl : Option (Interrupt × Bool)}
    {fs fs' : Finset String} {a t d : String} {st : Option String} {tr : Trace}
    (h : download sf dl fs a t d st = (.success, fs', tr)) :
    mp3OutputPath a t d ∉ fs ∧
      fs' = (insert (mp3OutputPath a t d) (insert (trackPath d (mp4Filename a t)) fs)).erase
        (trackPath d (mp4Filename a t)) := by
  by_cases hm : mp3OutputPath a t d ∈ fs
  · rw [download_of_mem hm] at h
    simp at h
  · refine ⟨hm, ?_⟩
    simp only [download] at h
    rw [if_neg hm] at h
    split at h
    · simp at h
    · split at h
      · simp at h
      · split at h
        · simp at h
        · split at h
          · simp at h
          · split at h
            · simp at h
            · simp only [Prod.mk.injEq] at h
              exact h.2.1.symm

theorem download_rejected_inv {sf : String → List YT} {dl : Option (Interrupt × Bool)}
    {fs fs' : Finset String} {a t d : String} {st : Option String} {tr : Trace} {m : String}
    (h : download sf dl fs a t d st = (.rejected m, fs', tr)) :
    mp3OutputPath a t d ∉ fs ∧ fs' = fs ∧
      ∀ fs₂ : Finset String, mp3OutputPath a t d ∉ fs₂ →
        download sf dl fs₂ a t d st = (.rejected m, fs₂, tr) := by
  by_cases hm : mp3OutputPath a t d ∈ fs
  · rw [download_of_mem hm] at h
    simp at h
  · refine ⟨hm, ?_⟩
    simp only [download] at h
    rw [if_neg hm] at h
    split at h
    · simp at h
    · rename_i yt rs hsf
      split at h
      · simp only [Prod.mk.injEq, DlOutcome.rejected.injEq] at h
        obtain ⟨hmsg, hfs, htr⟩ := h
        subst hmsg; subst hfs; subst htr
        rename_i hlen
        refine ⟨rfl, fun fs₂ hm₂ => ?_⟩
        simp only [download]
        rw [if_neg hm₂, hsf]
        simp only [if_pos hlen]
      · rename_i hlen
        split at h
        · simp at h
        · rename_i stream hstream
          split at h
          · simp only [Prod.mk.injEq, DlOutcome.rejected.injEq] at h
            obtain ⟨hmsg, hfs, htr⟩ := h
            subst hmsg; subst hfs; subst htr
            rename_i hsize
            refine ⟨rfl, fun fs₂ hm₂ => ?_⟩
            simp only [download]
            rw [if_neg hm₂, hsf]
            simp only [if_neg hlen, hstream, if_pos hsize]
          · split at h
            · simp at h
            · simp at h

/-- `download` never removes a durable `.mp3` output: the only erased path
is the `.mp4` intermediate (line 130). -/
theorem download_preserves {sf : String → List YT} {dl : Option (Interrupt × Bool)}
    {fs : Finset String} {a t d : String} {st : Option String} {a' t' d' : String}
    (hx : mp3OutputPath a' t' d' ∈ fs) :
    mp3OutputPath a' t' d' ∈ (download sf dl fs a t d st).2.1 := by
  simp only [download]
  split
  · exact hx
  · split
    · exact hx
    · split
      · exact hx
      · split
        · exact hx
        · split
          · exact hx
          · split
            · split
              · exact Finset.mem_insert_of_mem hx
              · exact hx
            · exact Finset.mem_erase_of_ne_of_mem (mp3OutputPath_ne_mp4 a' t' d' a t d)
                (Finset.mem_insert_of_mem (Finset.mem_insert_of_mem hx))

/-- Forward computation of a fully successful `download`. -/
theorem download_success_eq {sf : String → List YT}
    {fs : Finset String} {a t d : String} {st : Option String} {yt : YT} {rs : List YT}
    {stream : AudioStream}
    (hm : mp3OutputPath a t d ∉ fs)
    (hsf : sf (effectiveSearchTerm a t st) = yt :: rs)
    (hlen : ¬ TRACKLENGTH_UPPER_THRESHOLD < yt.length)
    (hstream : yt.audioWebm = some stream)
    (hsize : ¬ fileSizeMB stream.filesize < (FILESIZE_LOWER_THRESHOLD : ℚ)) :
    download sf none fs a t d st =
      (.success,
        (insert (mp3OutputPath a t d) (insert (trackPath d (mp4Filename a t)) fs)).erase
          (trackPath d (mp4Filename a t)),
        ⟨[effectiveSearchTerm a t st], [trackPath d (mp4Filename a t)],
          [mp3OutputPath a t d]⟩) := by
  simp only [download]
  rw [if_neg hm, hsf]
  simp only [if_neg hlen, hstream, if_neg hsize]

/-! ## Batch-loop lemmas -/

/-- A batch run that completes never removes a durable `.mp3` output:
the handler erase (line 156) is only reached on runs that exit. -/
theorem go_preserves (env : BatchEnv) (a t d : String) :
    ∀ (l : List Track) (i : Nat) (fs : Finset String) (g : Option String),
      (go env i fs g l).1 = .completed → mp3OutputPath a t d ∈ fs →
        mp3OutputPath a t d ∈ (go env i fs g l).2.1 := by
  intro l
  induction l with
  | nil => intro i fs g _ hm; simpa [go] using hm
  | cons tk rest ih =>
    intro i fs g hc hm
    by_cases hpre : env.pre i = true
    · exfalso
      rcases g with _ | f <;> simp [go, hpre] at hc
    · have hpre' : env.pre i = false := by simpa using hpre
      obtain ⟨o, fsr, tr, hdl⟩ : ∃ o fsr tr,
          download env.search (env.dl i) fs tk.artist tk.title tk.genre none = (o, fsr, tr) :=
        ⟨_, _, _, rfl⟩
      have hmem' : mp3OutputPath a t d ∈ fsr := by
        have h2 := @download_preserves env.search (env.dl i) fs
          tk.artist tk.title tk.genre none a t d hm
        rw [hdl] at h2
        exact h2
      obtain ⟨e2, fsE, attE, hrest⟩ : ∃ e2 fsE attE,
          go env (i + 1) fsr (some (mp4Filename tk.artist tk.title)) rest = (e2, fsE, attE) :=
        ⟨_, _, _, rfl⟩
      cases o with
      | success =>
        simp only [go, hpre', hdl, hrest] at hc ⊢
        have h3 := ih (i + 1) fsr (some (mp4Filename tk.artist tk.title))
          (by rw [hrest]; exact hc) hmem'
        rw [hrest] at h3
        simpa using h3
      | alreadyDownloaded =>
        simp only [go, hpre', hdl, hrest] at hc ⊢
        have h3 := ih (i + 1) fsr (some (mp4Filename tk.artist tk.title))
          (by rw [hrest]; exact hc) hmem'
        rw [hrest] at h3
        simpa using h3
      | rejected m =>
        simp only [go, hpre', hdl, hrest] at hc ⊢
        have h3 := ih (i + 1) fsr (some (mp4Filename tk.artist tk.title))
          (by rw [hrest]; exact hc) hmem'
        rw [hrest] at h3
        simpa using h3
      | interrupted sig => simp [go, hpre', hdl] at hc
      | indexError => simp [go, hpre', hdl] at hc
      | noStreamError => simp [go, hpre', hdl] at hc

/-- In an environment where every search succeeds with a valid top result,
every blocking download completes, and no interruption is raised, the batch
loop completes, invokes `download` once per configured track in list order,
and every configured track's output file exists afterwards. -/
theorem go_allgood (env : BatchEnv)
    (hpre : ∀ i, env.pre i = false)
    (hdl : ∀ i, env.dl i = none)
    (hsearch : ∀ q : String, ∃ yt rs stream, env.search q = yt :: rs ∧
        yt.length ≤ TRACKLENGTH_UPPER_THRESHOLD ∧ yt.audioWebm = some stream ∧
        (FILESIZE_LOWER_THRESHOLD : ℚ) ≤ fileSizeMB stream.filesize) :
    ∀ (l : List Track) (i : Nat) (fs : Finset String) (g : Option String),
      ∃ fs' att, go env i fs g l = (.completed, fs', att) ∧
        att.map Prod.fst = l ∧
        ∀ tk ∈ l, mp3OutputPath tk.artist tk.title tk.genre ∈ fs' := by
  intro l
  induction l with
  | nil => intro i fs g; exact ⟨fs, [], rfl, rfl, by simp⟩
  | cons tk rest ih =>
    intro i fs g
    by_cases hm : mp3OutputPath tk.artist tk.title tk.genre ∈ fs
    · obtain ⟨fs', att, hgo, hmap, hmem⟩ := ih (i + 1) fs (some (mp4Filename tk.artist tk.title))
      refine ⟨fs', (tk, .alreadyDownloaded) :: att, ?_, by simp [hmap], ?_⟩
      · simp [go, hpre i, download_of_mem hm, hgo]
      · intro tk' htk'
        rcases List.mem_cons.mp htk' with h | h
        · subst h
          have h2 := go_preserves env tk'.artist tk'.title tk'.genre rest (i + 1) fs
            (some (mp4Filename tk'.artist tk'.title)) (by rw [hgo]) hm
          rw [hgo] at h2
          exact h2
        · exact hmem tk' h
    · obtain ⟨yt, rs, stream, hq, hlen, hstream, hsize⟩ :=
        hsearch (tk.artist ++ " " ++ tk.title)
      have hdl2 : download env.search (env.dl i) fs tk.artist tk.title tk.genre none =
          (.success,
            (insert (mp3OutputPath tk.artist tk.title tk.genre)
              (insert (trackPath tk.genre (mp4Filename tk.artist tk.title)) fs)).erase
              (trackPath tk.genre (mp4Filename tk.artist tk.title)),
            ⟨[effectiveSearchTerm tk.artist tk.title none],
              [trackPath tk.genre (mp4Filename tk.artist tk.title)],
              [mp3OutputPath tk.artist tk.title tk.genre]⟩) := by
        rw [hdl i]
        exact download_success_eq hm hq (not_lt.mpr hlen) hstream (not_lt.mpr hsize)
      have hmemS : mp3OutputPath tk.artist tk.title tk.genre ∈
          (insert (mp3OutputPath tk.artist tk.title tk.genre)
            (insert (trackPath tk.genre (mp4Filename tk.artist tk.title)) fs)).erase
            (trackPath tk.genre (mp4Filename tk.artist tk.title)) :=
        Finset.mem_erase_of_ne_of_mem
          (mp3OutputPath_ne_mp4 tk.artist tk.title tk.genre tk.artist tk.title tk.genre)
          (Finset.mem_insert_self _ _)
      obtain ⟨fs', att, hgo, hmap, hmem⟩ := ih (i + 1)
        ((insert (mp3OutputPath tk.artist tk.title tk.genre)
          (insert (trackPath tk.genre (mp4Filename tk.artist tk.title)) fs)).erase
          (trackPath tk.genre (mp4Filename tk.artist tk.title)))
        (some (mp4Filename tk.artist tk.title))
      refine ⟨fs', (tk, .success) :: att, ?_, by simp [hmap], ?_⟩
      · simp [go, hpre i, hdl2, hgo]
      · intro tk' htk'
        rcases List.mem_cons.mp htk' with h | h
        · subst h
          have h2 := go_preserves env tk'.artist tk'.title tk'.genre rest (i + 1) _
            (some (mp4Filename tk'.artist tk'.title)) (by rw [hgo]) hmemS
          rw [hgo] at h2
          exact h2
        · exact hmem tk' h

/-- Re-running a completed batch segment from its final filesystem completes
with the same filesystem, and every track the first run acquired is skipped
via `TrackAlreadyDownloaded` in the second run. -/
theorem go_rerun (env : BatchEnv) :
    ∀ (l : List Track) (i : Nat) (fs fs1 : Finset String) (g : Option String)
      (att : List (Track × DlOutcome)),
      go env i fs g l = (.completed, fs1, att) →
      ∃ att2, go env i fs1 g l = (.completed, fs1, att2) ∧
        ∀ tk : Track, (tk, DlOutcome.success) ∈ att →
          (tk, DlOutcome.alreadyDownloaded) ∈ att2 := by
  intro l
  induction l with
  | nil =>
    intro i fs fs1 g att h
    simp only [go, Prod.mk.injEq] at h
    refine ⟨[], rfl, ?_⟩
    intro tk' htk'
    rw [← h.2.2] at htk'
    simp at htk'
  | cons tk rest ih =>
    intro i fs fs1 g att h
    by_cases hpre : env.pre i = true
    · exfalso
      rcases g with _ | f <;> simp [go, hpre] at h
    · have hpre' : env.pre i = false := by simpa using hpre
      obtain ⟨o, fsr, tr, hdl⟩ : ∃ o fsr tr,
          download env.search (env.dl i) fs tk.artist tk.title tk.genre none = (o, fsr, tr) :=
        ⟨_, _, _, rfl⟩
      obtain ⟨e2, fsE, attE, hrest⟩ : ∃ e2 fsE attE,
          go env (i + 1) fsr (some (mp4Filename tk.artist tk.title)) rest = (e2, fsE, attE) :=
        ⟨_, _, _, rfl⟩
      cases o with
      | success =>
        have hgoeq : go env i fs g (tk :: rest) = (e2, fsE, (tk, DlOutcome.success) :: attE) := by
          simp [go, hpre', hdl, hrest]
        rw [h] at hgoeq
        obtain ⟨he, hfs, hatt⟩ :
            RunEnd.completed = e2 ∧ fs1 = fsE ∧ att = (tk, DlOutcome.success) :: attE := by
          simpa [Prod.ext_iff] using hgoeq
        have hrest2 : go env (i + 1) fsr (some (mp4Filename tk.artist tk.title)) rest =
            (.completed, fs1, attE) := by rw [hrest, ← he, ← hfs]
        obtain ⟨hnot, hfsr⟩ := download_success_inv hdl
        have hm3 : mp3OutputPath tk.artist tk.title tk.genre ∈ fsr := by
          rw [hfsr]
          exact Finset.mem_erase_of_ne_of_mem
            (mp3OutputPath_ne_mp4 tk.artist tk.title tk.genre tk.artist tk.title tk.genre)
            (Finset.mem_insert_self _ _)
        have hm1 : mp3OutputPath tk.artist tk.title tk.genre ∈ fs1 := by
          have h2 := go_preserves env tk.artist tk.title tk.genre rest (i + 1) fsr
            (some (mp4Filename tk.artist tk.title)) (by rw [hrest2]) hm3
          rw [hrest2] at h2
          exact h2
        obtain ⟨att2, hgo2, hsucc⟩ :=
          ih (i + 1) fsr fs1 (some (mp4Filename tk.artist tk.title)) attE hrest2
        refine ⟨(tk, .alreadyDownloaded) :: att2, ?_, ?_⟩
        · simp [go, hpre', download_of_mem hm1, hgo2]
        · intro tk' htk'
          rw [hatt] at htk'
          rcases List.mem_cons.mp htk' with hh | hh
          · simp only [Prod.mk.injEq] at hh
            obtain ⟨h1, -⟩ := hh
            subst h1
            exact List.mem_cons_self _ _
          · exact List.mem_cons_of_mem _ (hsucc tk' hh)
      | alreadyDownloaded =>
        have hgoeq : go env i fs g (tk :: rest) =
            (e2, fsE, (tk, DlOutcome.alreadyDownloaded) :: attE) := by
          simp [go, hpre', hdl, hrest]
        rw [h] at hgoeq
        obtain ⟨he, hfs, hatt⟩ :
            RunEnd.completed = e2 ∧ fs1 = fsE ∧
              att = (tk, DlOutcome.alreadyDownloaded) :: attE := by
          simpa [Prod.ext_iff] using hgoeq
        obtain ⟨hmem, hfsr, -⟩ := download_already_inv hdl
        have hrest2 : go env (i + 1) fs (some (mp4Filename tk.artist tk.title)) rest =
            (.completed, fs1, attE) := by rw [← hfsr, hrest, ← he, ← hfs]
        have hm1 : mp3OutputPath tk.artist tk.title tk.genre ∈ fs1 := by
          have h2 := go_preserves env tk.artist tk.title tk.genre rest (i + 1) fs
            (some (mp4Filename tk.artist tk.title)) (by rw [hrest2]) hmem
          rw [hrest2] at h2
          exact h2
        obtain ⟨att2, hgo2, hsucc⟩ :=
          ih (i + 1) fs fs1 (some (mp4Filename tk.artist tk.title)) attE hrest2
        refine ⟨(tk, .alreadyDownloaded) :: att2, ?_, ?_⟩
        · simp [go, hpre', download_of_mem hm1, hgo2]
        · intro tk' htk'
          rw [hatt] at htk'
          rcases List.mem_cons.mp htk' with hh | hh
          · simp at hh
          · exact List.mem_cons_of_mem _ (hsucc tk' hh)
      | rejected m =>
        have hgoeq : go env i fs g (tk :: rest) =
            (e2, fsE, (tk, DlOutcome.rejected m) :: attE) := by
          simp [go, hpre', hdl, hrest]
        rw [h] at hgoeq
        obtain ⟨he, hfs, hatt⟩ :
            RunEnd.completed = e2 ∧ fs1 = fsE ∧ att = (tk, DlOutcome.rejected m) :: attE := by
          simpa [Prod.ext_iff] using hgoeq
        obtain ⟨hnot, hfsr, hparam⟩ := download_rejected_inv hdl
        have hrest2 : go env (i + 1) fs (some (mp4Filename tk.artist tk.title)) rest =
            (.completed, fs1, attE) := by rw [← hfsr, hrest, ← he, ← hfs]
        obtain ⟨att2, hgo2, hsucc⟩ :=
          ih (i + 1) fs fs1 (some (mp4Filename tk.artist tk.title)) attE hrest2
        by_cases hm1 : mp3OutputPath tk.artist tk.title tk.genre ∈ fs1
        · refine ⟨(tk, .alreadyDownloaded) :: att2, ?_, ?_⟩
          · simp [go, hpre', download_of_mem hm1, hgo2]
          · intro tk' htk'
            rw [hatt] at htk'
            rcases List.mem_cons.mp htk' with hh | hh
            · simp at hh
            · exact List.mem_cons_of_mem _ (hsucc tk' hh)
        · have hd2 := hparam fs1 hm1
          refine ⟨(tk, .rejected m) :: att2, ?_, ?_⟩
          · simp [go, hpre', hd2, hgo2]
          · intro tk' htk'
            rw [hatt] at htk'
            rcases List.mem_cons.mp htk' with hh | hh
            · simp at hh
            · exact List.mem_cons_of_mem _ (hsucc tk' hh)
      | interrupted sig => simp [go, hpre', hdl] at h
      | indexError => simp [go, hpre', hdl] at h
      | noStreamError => simp [go, hpre', hdl] at h

/-- Forward computation of a `download` whose blocking stream download is
interrupted. -/
theorem download_interrupted_eq {sf : String → List YT}
    {fs : Finset String} {a t d : String} {st : Option String} {yt : YT} {rs : List YT}
    {stream : AudioStream} {sig : Interrupt} {lo : Bool}
    (hm : mp3OutputPath a t d ∉ fs)
    (hsf : sf (effectiveSearchTerm a t st) = yt :: rs)
    (hlen : ¬ TRACKLENGTH_UPPER_THRESHOLD < yt.length)
    (hstream : yt.audioWebm = some stream)
    (hsize : ¬ fileSizeMB stream.filesize < (FILESIZE_LOWER_THRESHOLD : ℚ)) :
    download sf (some (sig, lo)) fs a t d st =
      (.interrupted sig,
        if lo then insert (trackPath d (mp4Filename a t)) fs else fs,
        ⟨[effectiveSearchTerm a t st], [trackPath d (mp4Filename a t)], []⟩) := by
  simp only [download]
  rw [if_neg hm, hsf]
  simp only [if_neg hlen, hstream, if_neg hsize]

/-! ## Concrete fixtures used by witnesses and counterexamples -/

/-- A 5 MB audio stream. -/
def streamGood : AudioStream := ⟨5000000⟩

/-- A 1 MB audio stream (below the size threshold). -/
def streamSmall : AudioStream := ⟨1000000⟩

/-- A 2 MB audio stream (exactly at the size threshold). -/
def streamAtLimit : AudioStream := ⟨2000000⟩

/-- A valid 5-minute result with a 5 MB stream. -/
def ytGood : YT := ⟨"video", 300, some streamGood⟩

/-- A result over the duration threshold (1000 s > 900 s). -/
def ytLong : YT := ⟨"video", 1000, none⟩

/-- A result exactly at the duration threshold (900 s), with no stream. -/
def ytAtLimit : YT := ⟨"video", 900, none⟩

/-- A short result whose stream is below the size threshold. -/
def ytSmall : YT := ⟨"video", 300, some streamSmall⟩

/-- A short result whose stream is exactly at the size threshold. -/
def ytSize2 : YT := ⟨"video", 300, some streamAtLimit⟩

/-- Search oracle returning one valid result for every query. -/
def sfGood : String → List YT := fun _ => [ytGood]

/-- Search oracle returning one too-long result for every query. -/
def sfLong : String → List YT := fun _ => [ytLong]

/-- Search oracle returning one result exactly at the duration threshold. -/
def sfAtLimit : String → List YT := fun _ => [ytAtLimit]

/-- Search oracle returning one too-small result for every query. -/
def sfSmall : String → List YT := fun _ => [ytSmall]

/-- Search oracle returning one result exactly at the size threshold. -/
def sfSize2 : String → List YT := fun _ => [ytSize2]

/-- Search oracle returning no results for any query. -/
def sfEmpty : String → List YT := fun _ => []

theorem fileSizeMB_5000000 : fileSizeMB 5000000 = 5 := by
  norm_num [fileSizeMB, pyRound2, roundHalfEven]

theorem fileSizeMB_1000000 : fileSizeMB 1000000 = 1 := by
  norm_num [fileSizeMB, pyRound2, roundHalfEven]

theorem fileSizeMB_2000000 : fileSizeMB 2000000 = 2 := by
  norm_num [fileSizeMB, pyRound2, roundHalfEven]

/-- Environment whose every track succeeds. -/
def envGood : BatchEnv := ⟨sfGood, fun _ => none, fun _ => false⟩

/-- Environment whose every search yields a too-long result. -/
def envLong : BatchEnv := ⟨sfLong, fun _ => none, fun _ => false⟩

/-- Environment whose every blocking download is interrupted by
`KeyboardInterrupt`, leaving a partial file. -/
def envInt : BatchEnv := ⟨sfGood, fun _ => some (.keyboardInterrupt, true), fun _ => false⟩

/-- Environment raising an interruption inside every `try` before the
`download` body runs. -/
def envPre : BatchEnv := ⟨sfGood, fun _ => none, fun _ => true⟩

/-- One-track configuration. -/
def cfg1 : Config := [("g", [("a", ["t"])])]

/-- 2 genres × 2 artists × 2 titles. -/
def cfg8 : Config :=
  [("g1", [("a1", ["t1", "t2"]), ("a2", ["t1", "t2"])]),
   ("g2", [("a1", ["t1", "t2"]), ("a2", ["t1", "t2"])])]

/-! ## Claims -/

/-- C1: for every track request whose computed transcoded output path
(target directory / `artist - title` with the audio extension) already
exists as a file, processing that track raises `AlreadyAcquired`
(`TrackAlreadyDownloaded`, lines 74-76) and performs no search, download,
or transcode calls — the returned trace is empty and the filesystem is
unchanged. -/
theorem claim1_already_acquired (sf : String → List YT) (dl : Option (Interrupt × Bool))
    (fs : Finset String) (a t d : String) (st : Option String)
    (h : mp3OutputPath a t d ∈ fs) :
    download sf dl fs a t d st = (.alreadyDownloaded, fs, ⟨[], [], []⟩) :=
  download_of_mem h

/-- Witness for C1 at a concrete input. -/
theorem claim1_witness :
    mp3OutputPath "a" "t" "g" ∈ ({mp3OutputPath "a" "t" "g"} : Finset String) ∧
    download sfGood none {mp3OutputPath "a" "t" "g"} "a" "t" "g" none =
      (.alreadyDownloaded, {mp3OutputPath "a" "t" "g"}, ⟨[], [], []⟩) :=
  ⟨Finset.mem_singleton_self _,
    claim1_already_acquired sfGood none {mp3OutputPath "a" "t" "g"} "a" "t" "g" none
      (Finset.mem_singleton_self _)⟩

/-- C2 (code bug): the claim asks for a clear `NoResults` rejection on an
empty search result list, but the code indexes `search_results[0]`
(line 87) and faults with an uncaught `IndexError`: evaluating the
embedded `download` on a search collaborator that returns `[]` yields the
`indexError` outcome (no `NoResults` condition exists anywhere in the
program, and `main` does not catch `IndexError`). -/
theorem claim2_empty_results_fault :
    download sfEmpty none ∅ "a" "t" "g" none =
      (.indexError, ∅, ⟨["a t"], [], []⟩) := by
  decide

/-- C3: the duration threshold defaults to 900 seconds; for every track
request whose top search result has duration strictly greater than the
threshold, processing raises `TrackRejected` (`TrackObtainError`) with the
too-long reason and performs no download or transcode calls (the trace
holds the single search query only); a result whose duration equals the
threshold is not rejected for duration. -/
theorem claim3_too_long :
    TRACKLENGTH_UPPER_THRESHOLD = 900 ∧
    (∀ (sf : String → List YT) (dl : Option (Interrupt × Bool)) (fs : Finset String)
      (a t d : String) (st : Option String) (yt : YT) (rs : List YT),
      mp3OutputPath a t d ∉ fs →
      sf (effectiveSearchTerm a t st) = yt :: rs →
      TRACKLENGTH_UPPER_THRESHOLD < yt.length →
      download sf dl fs a t d st =
        (.rejected "Unexpectedly long track. Skipping...", fs,
          ⟨[effectiveSearchTerm a t st], [], []⟩)) ∧
    (∀ (sf : String → List YT) (dl : Option (Interrupt × Bool)) (fs : Finset String)
      (a t d : String) (st : Option String) (yt : YT) (rs : List YT),
      mp3OutputPath a t d ∉ fs →
      sf (effectiveSearchTerm a t st) = yt :: rs →
      yt.length = TRACKLENGTH_UPPER_THRESHOLD →
      (download sf dl fs a t d st).1 ≠
        .rejected "Unexpectedly long track. Skipping...") := by
  refine ⟨rfl, ?_, ?_⟩
  · intro sf dl fs a t d st yt rs hm hsf hlen
    simp only [download]
    rw [if_neg hm, hsf]
    simp only [if_pos hlen]
  · intro sf dl fs a t d st yt rs hm hsf hlen
    have hnl : ¬ TRACKLENGTH_UPPER_THRESHOLD < yt.length := by omega
    simp only [download]
    rw [if_neg hm, hsf]
    simp only [if_neg hnl]
    rcases hstream : yt.audioWebm with _ | s
    · simp
    · by_cases hsz : fileSizeMB s.filesize < (FILESIZE_LOWER_THRESHOLD : ℚ)
      · simp only [if_pos hsz]
        simp
      · simp only [if_neg hsz]
        rcases dl with _ | ⟨sig, lo⟩
        · simp
        · simp

/-- Witness for C3: a 1000-second result is rejected as too long with no
download/transcode call; a 900-second result is not rejected as too long. -/
theorem claim3_witness :
    (mp3OutputPath "a" "t" "g" ∉ (∅ : Finset String) ∧
      download sfLong none ∅ "a" "t" "g" none =
        (.rejected "Unexpectedly long track. Skipping...", ∅, ⟨["a t"], [], []⟩)) ∧
    (download sfAtLimit none ∅ "a" "t" "g" none).1 ≠
      .rejected "Unexpectedly long track. Skipping..." := by
  refine ⟨⟨by simp, ?_⟩, ?_⟩
  · exact claim3_too_long.2.1 sfLong none ∅ "a" "t" "g" none ytLong [] (by simp) rfl
      (by decide)
  · exact claim3_too_long.2.2 sfAtLimit none ∅ "a" "t" "g" none ytAtLimit [] (by simp) rfl
      (by decide)

/-- C4: the size threshold defaults to 2 MB; the approximate size of the
selected stream is its byte count times `1e-6` rounded to 2 decimal
places; a strictly smaller value is rejected as too small with no
download or transcode call, while a value exactly at the threshold is not
rejected at all. -/
theorem claim4_too_small :
    FILESIZE_LOWER_THRESHOLD = 2 ∧
    (∀ n : Nat, fileSizeMB n = pyRound2 ((n : ℚ) * (1 / 1000000))) ∧
    (∀ (sf : String → List YT) (dl : Option (Interrupt × Bool)) (fs : Finset String)
      (a t d : String) (st : Option String) (yt : YT) (rs : List YT)
      (stream : AudioStream),
      mp3OutputPath a t d ∉ fs →
      sf (effectiveSearchTerm a t st) = yt :: rs →
      ¬ TRACKLENGTH_UPPER_THRESHOLD < yt.length →
      yt.audioWebm = some stream →
      fileSizeMB stream.filesize < (FILESIZE_LOWER_THRESHOLD : ℚ) →
      download sf dl fs a t d st =
        (.rejected "Unexpectedly small file size. Skipping...", fs,
          ⟨[effectiveSearchTerm a t st], [], []⟩)) ∧
    (∀ (sf : String → List YT) (dl : Option (Interrupt × Bool)) (fs : Finset String)
      (a t d : String) (st : Option String) (yt : YT) (rs : List YT)
      (stream : AudioStream) (m : String),
      mp3OutputPath a t d ∉ fs →
      sf (effectiveSearchTerm a t st) = yt :: rs →
      ¬ TRACKLENGTH_UPPER_THRESHOLD < yt.length →
      yt.audioWebm = some stream →
      fileSizeMB stream.filesize = (FILESIZE_LOWER_THRESHOLD : ℚ) →
      (download sf dl fs a t d st).1 ≠ .rejected m) := by
  refine ⟨rfl, fun n => rfl, ?_, ?_⟩
  · intro sf dl fs a t d st yt rs stream hm hsf hlen hstream hsz
    simp only [download]
    rw [if_neg hm, hsf]
    simp only [if_neg hlen, hstream, if_pos hsz]
  · intro sf dl fs a t d st yt rs stream m hm hsf hlen hstream hsz
    have hnsz : ¬ fileSizeMB stream.filesize < (FILESIZE_LOWER_THRESHOLD : ℚ) := by
      rw [hsz]
      exact lt_irrefl _
    simp only [download]
    rw [if_neg hm, hsf]
    simp only [if_neg hlen, hstream, if_neg hnsz]
    rcases dl with _ | ⟨sig, lo⟩
    · simp
    · simp

/-- Witness for C4: a 1 MB stream is rejected as too small; a 2 MB stream
is not rejected. -/
theorem claim4_witness :
    (download sfSmall none ∅ "a" "t" "g" none =
      (.rejected "Unexpectedly small file size. Skipping...", ∅, ⟨["a t"], [], []⟩)) ∧
    ∀ m : String, (download sfSize2 none ∅ "a" "t" "g" none).1 ≠ .rejected m := by
  constructor
  · exact claim4_too_small.2.2.1 sfSmall none ∅ "a" "t" "g" none ytSmall [] streamSmall
      (by simp) rfl (by decide) rfl
      (by show fileSizeMB 1000000 < _
          rw [fileSizeMB_1000000]
          norm_num [FILESIZE_LOWER_THRESHOLD])
  · intro m
    exact claim4_too_small.2.2.2 sfSize2 none ∅ "a" "t" "g" none ytSize2 [] streamAtLimit m
      (by simp) rfl (by decide) rfl
      (by show fileSizeMB 2000000 = _
          rw [fileSizeMB_2000000]
          norm_num [FILESIZE_LOWER_THRESHOLD])

/-- C5: every `download` call that returns success leaves the durable
audio file at the computed output path
`{DOWNLOAD_PATH}/{target_dir}/{artist} - {title}.mp3` in the filesystem,
and the intermediate `.mp4` file at the same base name absent (it is
unlinked at line 130 after the transcode). -/
theorem claim5_success_outputs (sf : String → List YT) (dl : Option (Interrupt × Bool))
    (fs : Finset String) (a t d : String) (st : Option String)
    (fs' : Finset String) (tr : Trace)
    (h : download sf dl fs a t d st = (.success, fs', tr)) :
    mp3OutputPath a t d ∈ fs' ∧ trackPath d (mp4Filename a t) ∉ fs' := by
  obtain ⟨hnot, hfs⟩ := download_success_inv h
  subst hfs
  exact ⟨Finset.mem_erase_of_ne_of_mem (mp3OutputPath_ne_mp4 a t d a t d)
      (Finset.mem_insert_self _ _),
    Finset.not_mem_erase _ _⟩

/-- Witness for C5 at a concrete successful download. -/
theorem claim5_witness :
    mp3OutputPath "a" "t" "g" ∈
      ((insert (mp3OutputPath "a" "t" "g")
        (insert (trackPath "g" (mp4Filename "a" "t")) (∅ : Finset String))).erase
        (trackPath "g" (mp4Filename "a" "t"))) ∧
    trackPath "g" (mp4Filename "a" "t") ∉
      ((insert (mp3OutputPath "a" "t" "g")
        (insert (trackPath "g" (mp4Filename "a" "t")) (∅ : Finset String))).erase
        (trackPath "g" (mp4Filename "a" "t"))) := by
  have h : download sfGood none ∅ "a" "t" "g" none =
      (.success,
        (insert (mp3OutputPath "a" "t" "g")
          (insert (trackPath "g" (mp4Filename "a" "t")) (∅ : Finset String))).erase
          (trackPath "g" (mp4Filename "a" "t")),
        ⟨["a t"], [trackPath "g" (mp4Filename "a" "t")], [mp3OutputPath "a" "t" "g"]⟩) :=
    download_success_eq (by simp) rfl (by decide) rfl
      (by show ¬ fileSizeMB 5000000 < _
          rw [fileSizeMB_5000000]
          norm_num [FILESIZE_LOWER_THRESHOLD])
  exact claim5_success_outputs sfGood none ∅ "a" "t" "g" none _ _ h

/-- C6: whenever an interruption signal (`KeyboardInterrupt` or
`ConnectionResetError`) surfaces from the blocking download of the track
currently being processed, the batch loop deletes that track's
intermediate `.mp4` file (a best-effort `unlink(missing_ok=True)`, modelled
by `Finset.erase`, which tolerates absence), terminates immediately with
`exit()`, and invokes `download` for no later track: the intermediate path
of the in-flight track is absent from the final filesystem and the
attempted-track list stops at the interrupted track. -/
theorem claim6_interrupt_cleanup (env : BatchEnv) (i : Nat) (fs : Finset String)
    (g : Option String) (tk : Track) (rest : List Track) (sig : Interrupt)
    (fs' : Finset String) (tr : Trace)
    (hpre : env.pre i = false)
    (hd : download env.search (env.dl i) fs tk.artist tk.title tk.genre none =
      (.interrupted sig, fs', tr)) :
    go env i fs g (tk :: rest) =
      (.interruptedExit,
        fs'.erase (trackPath tk.genre (mp4Filename tk.artist tk.title)),
        [(tk, .interrupted sig)]) ∧
    trackPath tk.genre (mp4Filename tk.artist tk.title) ∉ (go env i fs g (tk :: rest)).2.1 := by
  have hgo : go env i fs g (tk :: rest) =
      (.interruptedExit,
        fs'.erase (trackPath tk.genre (mp4Filename tk.artist tk.title)),
        [(tk, .interrupted sig)]) := by
    simp [go, hpre, hd]
  exact ⟨hgo, by rw [hgo]; exact Finset.not_mem_erase _ _⟩

/-- Witness for C6: a concrete run whose only download is interrupted
mid-transfer, leaving a partial file that the handler then removes. -/
theorem claim6_witness :
    go envInt 0 ∅ none [⟨"g", "a", "t"⟩] =
      (.interruptedExit,
        (insert (trackPath "g" (mp4Filename "a" "t")) (∅ : Finset String)).erase
          (trackPath "g" (mp4Filename "a" "t")),
        [(⟨"g", "a", "t"⟩, .interrupted .keyboardInterrupt)]) ∧
    trackPath "g" (mp4Filename "a" "t") ∉
      (go envInt 0 ∅ none [⟨"g", "a", "t"⟩]).2.1 := by
  have hd : download envInt.search (envInt.dl 0) ∅ "a" "t" "g" none =
      (.interrupted .keyboardInterrupt,
        insert (trackPath "g" (mp4Filename "a" "t")) (∅ : Finset String),
        ⟨["a t"], [trackPath "g" (mp4Filename "a" "t")], []⟩) :=
    download_interrupted_eq (by simp) rfl (by decide) rfl
      (by show ¬ fileSizeMB 5000000 < _
          rw [fileSizeMB_5000000]
          norm_num [FILESIZE_LOWER_THRESHOLD])
  exact claim6_interrupt_cleanup envInt 0 ∅ none ⟨"g", "a", "t"⟩ [] .keyboardInterrupt
    (insert (trackPath "g" (mp4Filename "a" "t")) ∅)
    ⟨["a t"], [trackPath "g" (mp4Filename "a" "t")], []⟩ rfl hd

/-- C7: when every track succeeds (the environment raises no interruption,
every blocking download completes, and every search returns a top result
passing both validations), the batch run completes, invokes `download`
exactly once per configured (genre, artist, title) triple, in the
genre → artist → title order of the configuration (`flatTracks`), and the
output file of every configured track exists afterwards. -/
theorem claim7_batch_order (env : BatchEnv)
    (hpre : ∀ i, env.pre i = false)
    (hdl : ∀ i, env.dl i = none)
    (hsearch : ∀ q : String, ∃ yt rs stream, env.search q = yt :: rs ∧
        yt.length ≤ TRACKLENGTH_UPPER_THRESHOLD ∧ yt.audioWebm = some stream ∧
        (FILESIZE_LOWER_THRESHOLD : ℚ) ≤ fileSizeMB stream.filesize)
    (fs0 : Finset String) (cfg : Config) :
    ∃ fs' att, runBatch env fs0 cfg = (.completed, fs', att) ∧
      att.map Prod.fst = flatTracks cfg ∧
      ∀ tk ∈ flatTracks cfg, mp3OutputPath tk.artist tk.title tk.genre ∈ fs' := by
  unfold runBatch
  exact go_allgood env hpre hdl hsearch (flatTracks cfg) 0 fs0 none

/-- Witness for C7: the 2 genres × 2 artists × 2 titles configuration
flattens to exactly 8 tracks in genre → artist → title order, and an
all-success batch over it processes them all and produces each output. -/
theorem claim7_witness :
    flatTracks cfg8 =
      [⟨"g1", "a1", "t1"⟩, ⟨"g1", "a1", "t2"⟩, ⟨"g1", "a2", "t1"⟩, ⟨"g1", "a2", "t2"⟩,
       ⟨"g2", "a1", "t1"⟩, ⟨"g2", "a1", "t2"⟩, ⟨"g2", "a2", "t1"⟩, ⟨"g2", "a2", "t2"⟩] ∧
    ∃ fs' att, runBatch envGood ∅ cfg8 = (.completed, fs', att) ∧
      att.map Prod.fst = flatTracks cfg8 ∧
      ∀ tk ∈ flatTracks cfg8, mp3OutputPath tk.artist tk.title tk.genre ∈ fs' := by
  refine ⟨by decide, ?_⟩
  exact claim7_batch_order envGood (fun _ => rfl) (fun _ => rfl)
    (fun q => ⟨ytGood, [], streamGood, rfl, by decide, rfl,
      by show (FILESIZE_LOWER_THRESHOLD : ℚ) ≤ fileSizeMB 5000000
         rw [fileSizeMB_5000000]
         norm_num [FILESIZE_LOWER_THRESHOLD]⟩)
    ∅ cfg8

/-- C8 counterexample: with one configured track whose search result is
always too long, the first batch run completes having rejected the track;
running the batch a second time over the unchanged configuration and
download root rejects it again with `TrackObtainError` — the track is not
skipped via `AlreadyAcquired`, contradicting the claim that during the
second run every track is skipped via `AlreadyAcquired`. -/
theorem claim8_counterexample :
    runBatch envLong ∅ cfg1 =
      (.completed, ∅,
        [(⟨"g", "a", "t"⟩, .rejected "Unexpectedly long track. Skipping...")]) ∧
    runBatch envLong (runBatch envLong ∅ cfg1).2.1 cfg1 =
      (.completed, ∅,
        [(⟨"g", "a", "t"⟩, .rejected "Unexpectedly long track. Skipping...")]) ∧
    DlOutcome.rejected "Unexpectedly long track. Skipping..." ≠
      DlOutcome.alreadyDownloaded := by
  refine ⟨by decide, by decide, by decide⟩

/-- C8 (amended): if the first batch run completes (no interruption and no
uncaught error), then re-running the batch over the unchanged
configuration and download root is idempotent: the second run also
completes, the set of files after the second run equals the set after the
first run, and every track the first run acquired successfully is skipped
via `AlreadyAcquired` in the second run.  (Tracks the first run rejected
are rejected again, not skipped via `AlreadyAcquired` — see the
counterexample.) -/
theorem claim8_idempotent (env : BatchEnv) (fs0 : Finset String) (cfg : Config)
    (fs1 : Finset String) (att : List (Track × DlOutcome))
    (h : runBatch env fs0 cfg = (.completed, fs1, att)) :
    ∃ att2, runBatch env fs1 cfg = (.completed, fs1, att2) ∧
      ∀ tk : Track, (tk, DlOutcome.success) ∈ att →
        (tk, DlOutcome.alreadyDownloaded) ∈ att2 := by
  unfold runBatch at h ⊢
  exact go_rerun env (flatTracks cfg) 0 fs0 fs1 none att h

/-- Witness for C8 (amended): a one-track all-success run, re-run from its
final filesystem. -/
theorem claim8_witness :
    ∃ att2,
      runBatch envGood
        ((insert (mp3OutputPath "a" "t" "g")
          (insert (trackPath "g" (mp4Filename "a" "t")) (∅ : Finset String))).erase
          (trackPath "g" (mp4Filename "a" "t"))) cfg1 =
        (.completed,
          (insert (mp3OutputPath "a" "t" "g")
            (insert (trackPath "g" (mp4Filename "a" "t")) (∅ : Finset String))).erase
            (trackPath "g" (mp4Filename "a" "t")),
          att2) ∧
      ∀ tk : Track,
        (tk, DlOutcome.success) ∈ [((⟨"g", "a", "t"⟩ : Track), DlOutcome.success)] →
        (tk, DlOutcome.alreadyDownloaded) ∈ att2 := by
  have hdl0 : download sfGood none ∅ "a" "t" "g" none =
      (.success,
        (insert (mp3OutputPath "a" "t" "g")
          (insert (trackPath "g" (mp4Filename "a" "t")) (∅ : Finset String))).erase
          (trackPath "g" (mp4Filename "a" "t")),
        ⟨["a t"], [trackPath "g" (mp4Filename "a" "t")], [mp3OutputPath "a" "t" "g"]⟩) :=
    download_success_eq (by simp) rfl (by decide) rfl
      (by show ¬ fileSizeMB 5000000 < _
          rw [fileSizeMB_5000000]
          norm_num [FILESIZE_LOWER_THRESHOLD])
  have hrun : runBatch envGood ∅ cfg1 =
      (.completed,
        (insert (mp3OutputPath "a" "t" "g")
          (insert (trackPath "g" (mp4Filename "a" "t")) (∅ : Finset String))).erase
          (trackPath "g" (mp4Filename "a" "t")),
        [((⟨"g", "a", "t"⟩ : Track), DlOutcome.success)]) := by
    simp [runBatch, flatTracks, cfg1, go, envGood, hdl0]
  exact claim8_idempotent envGood ∅ cfg1 _ _ hrun

/-- C9: supplying the optional search term as the empty string behaves
exactly like supplying no term (both are falsy at line 78): the query sent
to the search collaborator is then the artist and title joined by a single
space, while a non-empty supplied term is used verbatim. -/
theorem claim9_search_term :
    (∀ (sf : String → List YT) (dl : Option (Interrupt × Bool)) (fs : Finset String)
      (a t d : String),
      download sf dl fs a t d (some "") = download sf dl fs a t d none) ∧
    (∀ a t : String, effectiveSearchTerm a t none = a ++ " " ++ t) ∧
    (∀ a t s : String, s ≠ "" → effectiveSearchTerm a t (some s) = s) ∧
    (∀ (sf : String → List YT) (dl : Option (Interrupt × Bool)) (fs : Finset String)
      (a t d : String) (st : Option String),
      mp3OutputPath a t d ∉ fs →
      (download sf dl fs a t d st).2.2.searches = [effectiveSearchTerm a t st]) := by
  refine ⟨fun sf dl fs a t d => rfl, fun a t => rfl, ?_, ?_⟩
  · intro a t s hs
    simp [effectiveSearchTerm, hs]
  · intro sf dl fs a t d st hm
    simp only [download]
    rw [if_neg hm]
    split
    · rfl
    · split
      · rfl
      · split
        · rfl
        · split
          · rfl
          · split
            · rfl
            · rfl

/-- Witness for C9 at concrete inputs. -/
theorem claim9_witness :
    download sfGood none ∅ "a" "t" "g" (some "") = download sfGood none ∅ "a" "t" "g" none ∧
    effectiveSearchTerm "a" "t" (some "custom query") = "custom query" ∧
    (download sfGood none ∅ "a" "t" "g" none).2.2.searches =
      [effectiveSearchTerm "a" "t" none] :=
  ⟨claim9_search_term.1 sfGood none ∅ "a" "t" "g",
    claim9_search_term.2.2.1 "a" "t" "custom query" (by decide),
    claim9_search_term.2.2.2 sfGood none ∅ "a" "t" "g" none (by simp)⟩

/-- C10: the interruption handler (line 156) unlinks the path built from
the current loop `genre` and the process-wide global `filename` last
assigned by any `download` call (lines 66-67), then exits; when the
interruption is caught before the first `download` call has assigned the
global, the handler itself faults on the unbound name (`NameError`)
instead of cleaning up and exiting normally: the run ends in
`handlerNameError` with no file removed and no track attempted. -/
theorem claim10_handler_global :
    (∀ (env : BatchEnv) (i : Nat) (fs : Finset String) (f : String) (tk : Track)
      (rest : List Track),
      env.pre i = true →
      go env i fs (some f) (tk :: rest) =
        (.interruptedExit, fs.erase (trackPath tk.genre f), [])) ∧
    (∀ (env : BatchEnv) (fs : Finset String) (cfg : Config) (tk : Track)
      (rest : List Track),
      env.pre 0 = true →
      flatTracks cfg = tk :: rest →
      runBatch env fs cfg = (.handlerNameError, fs, [])) := by
  constructor
  · intro env i fs f tk rest hpre
    simp [go, hpre]
  · intro env fs cfg tk rest hpre hflat
    unfold runBatch
    rw [hflat]
    simp [go, hpre]

/-- Witness for C10: with the global assigned, a pre-body interruption
erases the path built from the current genre and that stale global; on the
very first track (global unassigned) the run ends in `handlerNameError`
with nothing attempted. -/
theorem claim10_witness :
    go envPre 0 ∅ (some (mp4Filename "x" "y")) [⟨"g", "a", "t"⟩] =
      (.interruptedExit,
        (∅ : Finset String).erase (trackPath "g" (mp4Filename "x" "y")), []) ∧
    runBatch envPre ∅ cfg1 = (.handlerNameError, ∅, []) :=
  ⟨claim10_handler_global.1 envPre 0 ∅ (mp4Filename "x" "y") ⟨"g", "a", "t"⟩ [] rfl,
    claim10_handler_global.2 envPre ∅ cfg1 ⟨"g", "a", "t"⟩ [] rfl (by decide)⟩
